import Mathlib

/-!
Verification of the Discord bot XP/booster/moderation core.

Shallow embedding of the repository code:
* `services/xp_service.py`  — XP ledger operations (`XpService`)
* `cogs/leveling/xp_cog.py` — spam-bounded XP aggregator (`XpCog`)
* `cogs/tracker/boost_cog.py` — booster tier engine (`BoostCog`)
* `cogs/moderation/mod_cog.py` — moderation actions and role guard (`ModCog`)
* `config.py` — configuration constants (`XP_CONFIG`, `BOOSTER_TIERS`)

Timestamps are modelled as integers, MySQL FLOAT columns and Python floats
as rationals (the multipliers appearing in the code are exact dyadic values),
and the `users` table as a partial map from user id to a row record.
-/

namespace DiscordBot

/-- Python `int(x)` applied to a numeric value: truncation toward zero. -/
def pyInt (q : ℚ) : ℤ := if q < 0 then ⌈q⌉ else ⌊q⌋

/-- One row of the `users` table (schema in `services/database.py`).
`badges` is the decoded JSON list (`NULL` decoded as the empty list by
`BoostCog._add_badge` / `_get_badges`). -/
structure UserRow where
  xp : ℤ
  tokens : ℤ
  event_points : ℤ
  xp_multiplier : ℚ
  token_multiplier : ℚ
  shop_discount : ℚ
  boost_start_date : Option ℤ
  badges : List String
  color_role_id : Option ℕ
  emblem_role_id : Option ℕ
  raffle_entries : ℤ
  pouches_today : ℤ
  xp_locked : Bool
  xp_lock_until : Option ℤ
  deriving Repr, DecidableEq

/-- Column defaults from `CREATE TABLE users` in `services/database.py`. -/
def defaultRow : UserRow where
  xp := 0
  tokens := 0
  event_points := 0
  xp_multiplier := 1
  token_multiplier := 1
  shop_discount := 0
  boost_start_date := none
  badges := []
  color_role_id := none
  emblem_role_id := none
  raffle_entries := 0
  pouches_today := 0
  xp_locked := false
  xp_lock_until := none

/-- The `users` table: partial map from user id to row. -/
def DB : Type := ℕ → Option UserRow

/-- Write one row (used for both `INSERT` and `UPDATE` effects). -/
def DB.set (db : DB) (uid : ℕ) (row : UserRow) : DB :=
  fun u => if u = uid then some row else db u

theorem DB.set_same (db : DB) (uid : ℕ) (row : UserRow) :
    db.set uid row uid = some row := by
  simp [DB.set]

theorem DB.set_other (db : DB) (uid : ℕ) (row : UserRow) (u : ℕ) (h : u ≠ uid) :
    db.set uid row u = db u := by
  simp [DB.set, h]

/-! ## XpService (`services/xp_service.py`) -/

/-- `XpService.get_multiplier`: the stored multiplier if the row exists and the
value is truthy (Python treats `0.0` as falsy), else `1.0`. -/
def get_multiplier (db : DB) (uid : ℕ) : ℚ :=
  match db uid with
  | some row => if row.xp_multiplier = 0 then 1 else row.xp_multiplier
  | none => 1

/-- `XpService.is_xp_locked`: returns the lock status, auto-clearing an
expired lock (returns the possibly-updated table as second component). -/
def is_xp_locked (db : DB) (now : ℤ) (uid : ℕ) : Bool × DB :=
  match db uid with
  | none => (false, db)
  | some row =>
      if row.xp_locked = false then (false, db)
      else
        match row.xp_lock_until with
        | some t =>
            if now > t then
              (false, db.set uid { row with xp_locked := false, xp_lock_until := none })
            else (true, db)
        | none => (true, db)

/-- The upsert `INSERT INTO users (user_id, xp) VALUES ... ON DUPLICATE KEY
UPDATE xp = xp + VALUES(xp)` used by `add_xp` and `batch_update`. -/
def upsert_xp (db : DB) (uid : ℕ) (v : ℤ) : DB :=
  match db uid with
  | some row => db.set uid { row with xp := row.xp + v }
  | none => db.set uid { defaultRow with xp := v }

/-- `XpService.add_xp`: checks the XP lock, applies the multiplier with
Python `int()`, upserts, and returns the new total (with the updated table). -/
def add_xp (db : DB) (now : ℤ) (uid : ℕ) (amount : ℤ) : ℤ × DB :=
  let locked := is_xp_locked db now uid
  if locked.1 then (0, locked.2)
  else
    let m := get_multiplier locked.2 uid
    let final_xp := pyInt (amount * m)
    let db2 := upsert_xp locked.2 uid final_xp
    match db2 uid with
    | some row => (row.xp, db2)
    | none => (final_xp, db2)

/-- `XpService.batch_update`: applies each pending delta through the user
multiplier and the same upsert.  There is no XP-lock check in this method. -/
def batch_update (db : DB) (pending : List (ℕ × ℤ)) : DB :=
  pending.foldl (fun d p => upsert_xp d p.1 (pyInt (p.2 * get_multiplier d p.1))) db

/-- `XpService.set_booster_perks`: upsert of multiplier/discount;
`boost_start_date` keeps an existing value (`COALESCE`), else the given start. -/
def set_booster_perks (db : DB) (uid : ℕ) (m disc : ℚ) (start : ℤ) : DB :=
  match db uid with
  | some row =>
      db.set uid { row with
        xp_multiplier := m
        shop_discount := disc
        boost_start_date := some (row.boost_start_date.getD start) }
  | none =>
      db.set uid { defaultRow with
        xp_multiplier := m
        shop_discount := disc
        boost_start_date := some start }

/-- `XpService.remove_booster_perks`: `UPDATE` (touches only an existing row). -/
def remove_booster_perks (db : DB) (uid : ℕ) : DB :=
  match db uid with
  | some row =>
      db.set uid { row with
        xp_multiplier := 1
        shop_discount := 0
        boost_start_date := none }
  | none => db

/-- The `xp_multiplier` entry of `XpService.get_user_perks`
(`result[...] or 1.0`: Python falsy `0.0` falls back to `1.0`). -/
def get_user_perks_xp_multiplier (db : DB) (uid : ℕ) : ℚ :=
  match db uid with
  | some row => if row.xp_multiplier = 0 then 1 else row.xp_multiplier
  | none => 1

/-! ## Booster tiers (`config.py` BOOSTER_TIERS, `cogs/tracker/boost_cog.py`) -/

/-- Tier key, ordered `server < veteran < mythic`. -/
inductive TierKey where
  | server
  | veteran
  | mythic
  deriving Repr, DecidableEq

/-- The tier configuration fields relevant to the ledger. -/
structure TierCfg where
  months_required : ℕ
  xp_multiplier : ℚ
  token_multiplier : ℚ
  shop_discount : ℚ
  raffle_entries : ℤ
  deriving Repr, DecidableEq

/-- `BOOSTER_TIERS` from `config.py` (role ids and pouch counts omitted:
they do not enter the ledger logic being verified). -/
def BOOSTER_TIERS : TierKey → TierCfg
  | .server => { months_required := 0, xp_multiplier := 3/2, token_multiplier := 3/2,
                 shop_discount := 1/5, raffle_entries := 1 }
  | .veteran => { months_required := 3, xp_multiplier := 7/4, token_multiplier := 7/4,
                  shop_discount := 1/5, raffle_entries := 4 }
  | .mythic => { months_required := 5, xp_multiplier := 2, token_multiplier := 2,
                 shop_discount := 1/5, raffle_entries := 8 }

/-- `BoostCog._get_tier_for_months`. -/
def get_tier_for_months (months : ℕ) : TierKey × TierCfg :=
  if months ≥ (BOOSTER_TIERS .mythic).months_required then (.mythic, BOOSTER_TIERS .mythic)
  else if months ≥ (BOOSTER_TIERS .veteran).months_required then (.veteran, BOOSTER_TIERS .veteran)
  else (.server, BOOSTER_TIERS .server)

/-- Position of a tier in the total order `server < veteran < mythic`. -/
def tierIdx : TierKey → ℕ
  | .server => 0
  | .veteran => 1
  | .mythic => 2

/-- Claim C5: the tier-selection function maps `months = floor(days/30)` to the
maximal tier whose `months_required` threshold is `≤ months` (thresholds as
inclusive lower bounds over `server (0) < veteran (3) < mythic (5)`):
months in `[0,2]` yields `server`, `[3,4]` yields `veteran`, `≥ 5` yields
`mythic`. -/
theorem tier_selection_maximal_threshold (months : ℕ) :
    (BOOSTER_TIERS (get_tier_for_months months).1).months_required ≤ months
    ∧ (∀ k : TierKey, (BOOSTER_TIERS k).months_required ≤ months →
        tierIdx k ≤ tierIdx (get_tier_for_months months).1)
    ∧ (get_tier_for_months months).2 = BOOSTER_TIERS (get_tier_for_months months).1
    ∧ (months ≤ 2 → (get_tier_for_months months).1 = .server)
    ∧ (3 ≤ months → months ≤ 4 → (get_tier_for_months months).1 = .veteran)
    ∧ (5 ≤ months → (get_tier_for_months months).1 = .mythic) := by
  have e : get_tier_for_months months =
      if 5 ≤ months then (.mythic, BOOSTER_TIERS .mythic)
      else if 3 ≤ months then (.veteran, BOOSTER_TIERS .veteran)
      else (.server, BOOSTER_TIERS .server) := rfl
  rcases Nat.lt_or_ge months 3 with h3 | h3
  · rw [e, if_neg (by omega), if_neg (by omega)]
    refine ⟨Nat.zero_le _, ?_, rfl, fun _ => rfl,
      fun h _ => absurd h (by omega), fun h => absurd h (by omega)⟩
    intro k hk
    cases k
    · exact Nat.le_refl _
    · exact absurd hk (by simp only [BOOSTER_TIERS]; omega)
    · exact absurd hk (by simp only [BOOSTER_TIERS]; omega)
  · rcases Nat.lt_or_ge months 5 with h5 | h5
    · rw [e, if_neg (by omega), if_pos (by omega)]
      refine ⟨by simpa only [BOOSTER_TIERS] using h3, ?_, rfl,
        fun h => absurd h (by omega), fun _ _ => rfl, fun h => absurd h (by omega)⟩
      intro k hk
      cases k
      · exact Nat.zero_le _
      · exact Nat.le_refl _
      · exact absurd hk (by simp only [BOOSTER_TIERS]; omega)
    · rw [e, if_pos h5]
      refine ⟨by simpa only [BOOSTER_TIERS] using h5, ?_, rfl,
        fun h => absurd h (by omega), fun _ h => absurd h (by omega), fun _ => rfl⟩
      intro k hk
      cases k
      · exact Nat.zero_le _
      · exact Nat.le_of_lt_succ (by exact Nat.lt_succ_of_lt (Nat.lt_succ_self 1))
      · exact Nat.le_refl _

/-- Witness for C5 at `months = 4`: veteran is selected and its threshold is met. -/
theorem tier_selection_maximal_threshold_witness :
    (get_tier_for_months 4).1 = .veteran ∧ (BOOSTER_TIERS .veteran).months_required ≤ 4 :=
  ⟨(tier_selection_maximal_threshold 4).2.2.2.2.1 (by decide) (by decide),
   (by decide)⟩

/-! ## BoostCog ledger effects (`cogs/tracker/boost_cog.py`) -/

/-- The `UPDATE users SET token_multiplier = ..., raffle_entries = ...` issued
by `_handle_new_boost` and `check_tier_promotions` (touches only an existing
row). -/
def update_token_raffle (db : DB) (uid : ℕ) (tm : ℚ) (re : ℤ) : DB :=
  match db uid with
  | some row => db.set uid { row with token_multiplier := tm, raffle_entries := re }
  | none => db

/-- The ledger effect of one member in `BoostCog.check_tier_promotions`
(daily sweep): recompute the tier from `days` boosting; if its multiplier
strictly exceeds the stored one, write the tier fields, else do nothing.
(`now` is the timestamp `set_booster_perks` would default the start date to.) -/
def check_tier_promotion_member (db : DB) (uid : ℕ) (days : ℕ) (now : ℤ) : DB :=
  if get_user_perks_xp_multiplier db uid
      < (get_tier_for_months (days / 30)).2.xp_multiplier then
    update_token_raffle
      (set_booster_perks db uid (get_tier_for_months (days / 30)).2.xp_multiplier
        (get_tier_for_months (days / 30)).2.shop_discount now)
      uid (get_tier_for_months (days / 30)).2.token_multiplier
      (get_tier_for_months (days / 30)).2.raffle_entries
  else db

/-- The ledger effect of `BoostCog._handle_boost_expired`:
`remove_booster_perks` followed by the token/raffle/color/emblem reset
`UPDATE`.  (Platform role removal has no ledger effect.) -/
def handle_boost_expired (db : DB) (uid : ℕ) : DB :=
  let db1 := remove_booster_perks db uid
  match db1 uid with
  | some row =>
      db1.set uid { row with
        token_multiplier := 1
        raffle_entries := 0
        color_role_id := none
        emblem_role_id := none }
  | none => db1

/-- The tier multiplier is one of `3/2`, `7/4`, `2`; in particular positive. -/
theorem tier_multiplier_pos (months : ℕ) :
    0 < (get_tier_for_months months).2.xp_multiplier := by
  have e : get_tier_for_months months =
      if 5 ≤ months then (.mythic, BOOSTER_TIERS .mythic)
      else if 3 ≤ months then (.veteran, BOOSTER_TIERS .veteran)
      else (.server, BOOSTER_TIERS .server) := rfl
  rw [e]
  split_ifs <;> norm_num [BOOSTER_TIERS]

/-- Claim C6: the daily promotion sweep updates a boosting user's stored
ledger fields only when the time-derived tier's multiplier strictly exceeds
the stored multiplier, so the stored multiplier is monotonically
non-decreasing under the sweep and the sweep never demotes. -/
theorem sweep_promotion_ratchet (db : DB) (uid : ℕ) (days : ℕ) (now : ℤ) :
    get_user_perks_xp_multiplier db uid
      ≤ get_user_perks_xp_multiplier (check_tier_promotion_member db uid days now) uid
    ∧ ((get_tier_for_months (days / 30)).2.xp_multiplier
          ≤ get_user_perks_xp_multiplier db uid →
        check_tier_promotion_member db uid days now = db)
    ∧ (get_user_perks_xp_multiplier db uid
          < (get_tier_for_months (days / 30)).2.xp_multiplier →
        get_user_perks_xp_multiplier (check_tier_promotion_member db uid days now) uid
          = (get_tier_for_months (days / 30)).2.xp_multiplier) := by
  set tier := (get_tier_for_months (days / 30)).2 with htier
  have hpos : 0 < tier.xp_multiplier := tier_multiplier_pos (days / 30)
  by_cases hlt : get_user_perks_xp_multiplier db uid < tier.xp_multiplier
  · have hstep : check_tier_promotion_member db uid days now =
        update_token_raffle
          (set_booster_perks db uid tier.xp_multiplier tier.shop_discount now)
          uid tier.token_multiplier tier.raffle_entries := by
      unfold check_tier_promotion_member
      rw [← htier, if_pos hlt]
    have hmult : get_user_perks_xp_multiplier
        (check_tier_promotion_member db uid days now) uid = tier.xp_multiplier := by
      rw [hstep]
      unfold update_token_raffle set_booster_perks get_user_perks_xp_multiplier
      cases hdb : db uid <;>
        simp [DB.set, hdb, ne_of_gt hpos]
    exact ⟨by rw [hmult]; exact le_of_lt hlt,
      fun h => absurd h (not_le_of_lt hlt), fun _ => hmult⟩
  · have hstep : check_tier_promotion_member db uid days now = db := by
      unfold check_tier_promotion_member
      rw [← htier, if_neg hlt]
    exact ⟨by rw [hstep], fun _ => hstep, fun h => absurd h hlt⟩

/-- Witness for C6: a non-booster-row user (stored multiplier 1) crossing the
veteran threshold (days = 95) gets the veteran multiplier `7/4`; and with a
stored multiplier `2` the sweep at 95 days changes nothing. -/
theorem sweep_promotion_ratchet_witness :
    get_user_perks_xp_multiplier
      (check_tier_promotion_member (fun _ => none) 1 95 0) 1 = 7/4
    ∧ check_tier_promotion_member
        (fun u => if u = 1 then some { defaultRow with xp_multiplier := 2 } else none)
        1 95 0
      = (fun u => if u = 1 then some { defaultRow with xp_multiplier := 2 } else none) := by
  constructor
  · have h := (sweep_promotion_ratchet (fun _ => none) 1 95 0).2.2
    have e : (get_tier_for_months (95 / 30)).2.xp_multiplier = 7/4 := by norm_num [get_tier_for_months, BOOSTER_TIERS]
    rw [e] at h
    exact h (by norm_num [get_user_perks_xp_multiplier])
  · have h := (sweep_promotion_ratchet
      (fun u => if u = 1 then some { defaultRow with xp_multiplier := 2 } else none) 1 95 0).2.1
    have e : (get_tier_for_months (95 / 30)).2.xp_multiplier = 7/4 := by norm_num [get_tier_for_months, BOOSTER_TIERS]
    rw [e] at h
    exact h (by norm_num [get_user_perks_xp_multiplier, defaultRow])

/-- Claim C7: boost-expired handling resets `xp_multiplier` to 1,
`shop_discount` to 0, `token_multiplier` to 1, `raffle_entries` to 0, clears
`boost_start_date`, `color_role_id` and `emblem_role_id`, and leaves `badges`
(and the other counters) unchanged. -/
theorem boost_expired_resets_perks_keeps_badges
    (db : DB) (uid : ℕ) (row : UserRow) (h : db uid = some row) :
    handle_boost_expired db uid uid
      = some { row with
          xp_multiplier := 1
          shop_discount := 0
          boost_start_date := none
          token_multiplier := 1
          raffle_entries := 0
          color_role_id := none
          emblem_role_id := none }
    ∧ (handle_boost_expired db uid uid).map UserRow.badges = some row.badges := by
  have h1 : remove_booster_perks db uid uid
      = some { row with xp_multiplier := 1, shop_discount := 0, boost_start_date := none } := by
    unfold remove_booster_perks
    rw [h]
    exact DB.set_same ..
  have h2 : handle_boost_expired db uid uid
      = some { row with
          xp_multiplier := 1
          shop_discount := 0
          boost_start_date := none
          token_multiplier := 1
          raffle_entries := 0
          color_role_id := none
          emblem_role_id := none } := by
    unfold handle_boost_expired
    rw [h1]
    exact DB.set_same ..
  exact ⟨h2, by rw [h2]; rfl⟩

/-- Witness for C7 at a concrete row carrying a badge and nonzero perks. -/
theorem boost_expired_resets_perks_keeps_badges_witness :
    (handle_boost_expired
        (fun u => if u = 7 then
          some { defaultRow with
            xp := 40, xp_multiplier := 2, token_multiplier := 2, shop_discount := 1/5,
            raffle_entries := 8, boost_start_date := some 3,
            color_role_id := some 11, emblem_role_id := some 12,
            badges := ["S1 Booster"] }
          else none) 7 7).map UserRow.badges = some ["S1 Booster"] :=
  (boost_expired_resets_perks_keeps_badges
    (fun u => if u = 7 then
      some { defaultRow with
        xp := 40, xp_multiplier := 2, token_multiplier := 2, shop_discount := 1/5,
        raffle_entries := 8, boost_start_date := some 3,
        color_role_id := some 11, emblem_role_id := some 12,
        badges := ["S1 Booster"] }
      else none) 7
    { defaultRow with
        xp := 40, xp_multiplier := 2, token_multiplier := 2, shop_discount := 1/5,
        raffle_entries := 8, boost_start_date := some 3,
        color_role_id := some 11, emblem_role_id := some 12,
        badges := ["S1 Booster"] } (by simp)).2

/-! ## ModCog ledger effects (`cogs/moderation/mod_cog.py`) -/

/-- `ModCog._wipe_economy`: the `UPDATE` run for a permanent ban.  Note the
columns it touches: `xp`, `tokens`, `xp_multiplier`, `token_multiplier`,
`shop_discount`, `raffle_entries`, `pouches_today` — not `event_points`. -/
def wipe_economy (db : DB) (uid : ℕ) : DB :=
  match db uid with
  | some row =>
      db.set uid { row with
        xp := 0
        tokens := 0
        xp_multiplier := 1
        token_multiplier := 1
        shop_discount := 0
        raffle_entries := 0
        pouches_today := 0 }
  | none => db

/-- Python `str.lower()` (ASCII case folding, character by character). -/
def py_lower (s : String) : String :=
  ⟨s.data.map Char.toLower⟩

/-- The ledger effect of `ModCog.ban`: `_wipe_economy` exactly when
`duration.lower() == "perm"`.  (DM, platform ban and mod-log entry have no
ledger effect.) -/
def ban_ledger_effect (db : DB) (uid : ℕ) (duration : String) : DB :=
  if py_lower duration = "perm" then wipe_economy db uid else db

/-- A concrete users table for the C8 counterexample: user 1 has
`event_points = 7` and nonzero economy fields. -/
def dbC8 : DB :=
  fun u => if u = 1 then
    some { defaultRow with
      xp := 100, tokens := 50, event_points := 7, xp_multiplier := 2,
      token_multiplier := 2, shop_discount := 1/5, raffle_entries := 8,
      badges := ["S1 Booster"] }
    else none

/-- Counterexample to claim C8 as stated: a permanent ban does NOT set
`event_points` to 0 — user 1 starts with `event_points = 7` and still has
`event_points = 7` after the perm-ban economy wipe. -/
theorem perm_ban_keeps_event_points :
    ((ban_ledger_effect dbC8 1 "perm") 1).map UserRow.event_points = some 7
    ∧ (7 : ℤ) ≠ 0 := by
  constructor
  · rfl
  · decide

/-- Claim C8 as amended: banning with duration `"perm"` wipes `xp`, `tokens`,
`xp_multiplier`, `token_multiplier`, `shop_discount`, `raffle_entries` (and
`pouches_today`) to defaults while leaving `event_points` and `badges`
unchanged; a ban with any duration whose lowercase form is not `"perm"`
leaves the ledger unchanged. -/
theorem ban_ledger_semantics (db : DB) (uid : ℕ) (row : UserRow) (duration : String)
    (h : db uid = some row) :
    (py_lower duration = "perm" →
      ban_ledger_effect db uid duration uid
        = some { row with
            xp := 0
            tokens := 0
            xp_multiplier := 1
            token_multiplier := 1
            shop_discount := 0
            raffle_entries := 0
            pouches_today := 0 })
    ∧ (py_lower duration ≠ "perm" → ban_ledger_effect db uid duration = db) := by
  constructor
  · intro hd
    unfold ban_ledger_effect wipe_economy
    rw [if_pos hd, h]
    exact DB.set_same ..
  · intro hd
    unfold ban_ledger_effect
    rw [if_neg hd]

/-- Witness for C8 (amended) at a concrete table: a `"PERM"` ban wipes the
fields of user 1, and a `"7d"` ban leaves the table untouched. -/
theorem ban_ledger_semantics_witness :
    (ban_ledger_effect dbC8 1 "PERM") 1
      = some { defaultRow with
          xp := 0, tokens := 0, event_points := 7, xp_multiplier := 1,
          token_multiplier := 1, shop_discount := 0, raffle_entries := 0,
          badges := ["S1 Booster"], pouches_today := 0 }
    ∧ ban_ledger_effect dbC8 1 "7d" = dbC8 := by
  constructor
  · exact (ban_ledger_semantics dbC8 1
      { defaultRow with
        xp := 100, tokens := 50, event_points := 7, xp_multiplier := 2,
        token_multiplier := 2, shop_discount := 1/5, raffle_entries := 8,
        badges := ["S1 Booster"] } "PERM" (by simp [dbC8])).1 (by decide)
  · exact (ban_ledger_semantics dbC8 1
      { defaultRow with
        xp := 100, tokens := 50, event_points := 7, xp_multiplier := 2,
        token_multiplier := 2, shop_discount := 1/5, raffle_entries := 8,
        badges := ["S1 Booster"] } "7d" (by simp [dbC8])).2 (by decide)

/-! ## Ledger apply semantics (claims C1, C2) -/

/-- Truncation agrees with floor on non-negative values. -/
theorem pyInt_of_nonneg {q : ℚ} (h : 0 ≤ q) : pyInt q = ⌊q⌋ := by
  unfold pyInt
  rw [if_neg (not_lt.mpr h)]

/-- When the lock check reports `true` it does not modify the table. -/
theorem is_xp_locked_true_frame (db : DB) (now : ℤ) (uid : ℕ)
    (h : (is_xp_locked db now uid).1 = true) :
    is_xp_locked db now uid = (true, db) := by
  cases hdb : db uid with
  | none => simp [is_xp_locked, hdb] at h
  | some row =>
      by_cases hl : row.xp_locked = false
      · simp [is_xp_locked, hdb, hl] at h
      · cases hu : row.xp_lock_until with
        | none => simp [is_xp_locked, hdb, hl, hu]
        | some t =>
            by_cases ht : now > t
            · simp [is_xp_locked, hdb, hl, hu, ht] at h
            · simp [is_xp_locked, hdb, hl, hu, ht]

/-- The table returned by the lock check is either unchanged, or the same
table with the (existing) row's expired lock cleared. -/
theorem is_xp_locked_snd_spec (db : DB) (now : ℤ) (uid : ℕ) :
    (is_xp_locked db now uid).2 = db
    ∨ ∃ row, db uid = some row ∧
        (is_xp_locked db now uid).2
          = db.set uid { row with xp_locked := false, xp_lock_until := none } := by
  cases hdb : db uid with
  | none => left; simp [is_xp_locked, hdb]
  | some row =>
      by_cases hl : row.xp_locked = false
      · left; simp [is_xp_locked, hdb, hl]
      · cases hu : row.xp_lock_until with
        | none => left; simp [is_xp_locked, hdb, hl, hu]
        | some t =>
            by_cases ht : now > t
            · right
              exact ⟨row, rfl, by simp [is_xp_locked, hdb, hl, hu, ht]⟩
            · left; simp [is_xp_locked, hdb, hl, hu, ht]

/-- A concrete users table for the C1 counterexample: user 1 is XP-locked
until time 100. -/
def dbC1 : DB :=
  fun u => if u = 1 then
    some { defaultRow with xp_locked := true, xp_lock_until := some 100 }
    else none

/-- Counterexample to claim C1 as stated: at time `now = 0` user 1 is
currently XP-locked, yet the batch flush apply (`batch_update`) credits the
pending 10 XP to the ledger instead of dropping it — `batch_update` performs
no lock check. -/
theorem batch_update_ignores_xp_lock :
    (is_xp_locked dbC1 0 1).1 = true
    ∧ ((batch_update dbC1 [(1, 10)]) 1).map UserRow.xp = some 10
    ∧ (10 : ℤ) ≠ 0 := by
  refine ⟨?_, ?_, by decide⟩
  · rfl
  · show (upsert_xp dbC1 1 (pyInt (10 * get_multiplier dbC1 1)) 1).map UserRow.xp = some 10
    have hm : get_multiplier dbC1 1 = 1 := rfl
    have hv : pyInt (10 * get_multiplier dbC1 1) = 10 := by
      rw [hm, pyInt_of_nonneg (by norm_num)]
      norm_num
    rw [hv]
    rfl

/-- Claim C1 as amended: for a currently XP-locked user, `add_xp` silently
drops the award (returns 0 and leaves the table unchanged), but the batch
flush apply (`batch_update`) has no lock check and credits
`int(pending × multiplier)` to the ledger regardless of the lock. -/
theorem xp_lock_add_vs_batch (db : DB) (now : ℤ) (uid : ℕ) (amount x : ℤ)
    (h : (is_xp_locked db now uid).1 = true) :
    add_xp db now uid amount = (0, db)
    ∧ ((batch_update db [(uid, x)]) uid).map UserRow.xp
        = some ((db uid).elim 0 UserRow.xp + pyInt (x * get_multiplier db uid)) := by
  have hf := is_xp_locked_true_frame db now uid h
  constructor
  · simp [add_xp, hf]
  · show (upsert_xp db uid (pyInt (x * get_multiplier db uid)) uid).map UserRow.xp = _
    cases hdb : db uid with
    | some row => simp [upsert_xp, hdb, DB.set_same]
    | none => simp [upsert_xp, hdb, DB.set_same]

/-- Witness for C1 (amended): at the concrete locked table `dbC1`,
`add_xp` returns 0 and changes nothing, while `batch_update` adds 10. -/
theorem xp_lock_add_vs_batch_witness :
    add_xp dbC1 0 1 10 = (0, dbC1)
    ∧ ((batch_update dbC1 [(1, 10)]) 1).map UserRow.xp
        = some ((dbC1 1).elim 0 UserRow.xp + pyInt (10 * get_multiplier dbC1 1)) :=
  xp_lock_add_vs_batch dbC1 0 1 10 10 rfl

/-- Claim C2: for a non-locked user and non-negative raw amount, `add_xp`
increases the stored `xp` by exactly `⌊amount × multiplier⌋`, creating the
row with that value when absent, and returns the new total. -/
theorem add_xp_applies_multiplier (db : DB) (now : ℤ) (uid : ℕ) (amount : ℤ)
    (hnl : (is_xp_locked db now uid).1 = false)
    (ha : 0 ≤ amount) (hm : 0 ≤ get_multiplier db uid) :
    ((add_xp db now uid amount).2 uid).map UserRow.xp
      = some ((db uid).elim 0 UserRow.xp + ⌊(amount : ℚ) * get_multiplier db uid⌋)
    ∧ (add_xp db now uid amount).1
      = (db uid).elim 0 UserRow.xp + ⌊(amount : ℚ) * get_multiplier db uid⌋
    ∧ (db uid = none →
        (add_xp db now uid amount).2 uid
          = some { defaultRow with xp := ⌊(amount : ℚ) * get_multiplier db uid⌋ }) := by
  have hq : (0 : ℚ) ≤ (amount : ℚ) * get_multiplier db uid :=
    mul_nonneg (by exact_mod_cast ha) hm
  rcases is_xp_locked_snd_spec db now uid with hA | ⟨row, hdb, hB⟩
  · have hmul : get_multiplier (is_xp_locked db now uid).2 uid = get_multiplier db uid := by
      rw [hA]
    cases hdb : db uid with
    | some row =>
        have : add_xp db now uid amount =
            (row.xp + pyInt (amount * get_multiplier db uid),
             db.set uid { row with xp := row.xp + pyInt (amount * get_multiplier db uid) }) := by
          simp [add_xp, hnl, hA, hmul, upsert_xp, hdb, DB.set_same]
        rw [this, pyInt_of_nonneg hq]
        exact ⟨by simp [DB.set_same], by simp, fun hc => Option.noConfusion hc⟩
    | none =>
        have : add_xp db now uid amount =
            (pyInt (amount * get_multiplier db uid),
             db.set uid { defaultRow with xp := pyInt (amount * get_multiplier db uid) }) := by
          simp [add_xp, hnl, hA, hmul, upsert_xp, hdb, DB.set_same, defaultRow]
        rw [this, pyInt_of_nonneg hq]
        exact ⟨by simp [DB.set_same, hdb], by simp [hdb], fun _ => by simp [DB.set_same]⟩
  · have hmul : get_multiplier (is_xp_locked db now uid).2 uid = get_multiplier db uid := by
      rw [hB]
      simp [get_multiplier, DB.set_same, hdb]
    have hsnd : (is_xp_locked db now uid).2 uid
        = some { row with xp_locked := false, xp_lock_until := none } := by
      rw [hB]; exact DB.set_same ..
    have : add_xp db now uid amount =
        (row.xp + pyInt (amount * get_multiplier db uid),
         ((is_xp_locked db now uid).2).set uid
           { row with xp_locked := false, xp_lock_until := none,
                      xp := row.xp + pyInt (amount * get_multiplier db uid) }) := by
      simp [add_xp, hnl, hmul, upsert_xp, hsnd, DB.set_same]
    rw [this, pyInt_of_nonneg hq]
    refine ⟨by simp [DB.set_same, hdb], by simp [hdb], ?_⟩
    intro hc
    rw [hdb] at hc
    exact Option.noConfusion hc

/-- A concrete users table for the C2 witness: user 5 has `xp = 100` and
`xp_multiplier = 1.5`, and is not locked. -/
def dbW2 : DB :=
  fun u => if u = 5 then
    some { defaultRow with xp := 100, xp_multiplier := 3/2 }
    else none

/-- Witness for C2: `add_xp(user 5, 10)` with multiplier `1.5` takes the
ledger from 100 to exactly `100 + 15 = 115`. -/
theorem add_xp_applies_multiplier_witness :
    (add_xp dbW2 0 5 10).1 = 115
    ∧ ((add_xp dbW2 0 5 10).2 5).map UserRow.xp = some 115 := by
  have h := add_xp_applies_multiplier dbW2 0 5 10 (by decide) (by norm_num)
    (by norm_num [get_multiplier, dbW2])
  have h1 : (dbW2 5).elim 0 UserRow.xp = 100 := by norm_num [dbW2]
  have h2 : get_multiplier dbW2 5 = 3/2 := by norm_num [get_multiplier, dbW2]
  have e : (dbW2 5).elim 0 UserRow.xp + ⌊((10 : ℤ) : ℚ) * get_multiplier dbW2 5⌋ = 115 := by
    rw [h1, h2]
    have e1 : ((10 : ℤ) : ℚ) * (3/2) = ((15 : ℤ) : ℚ) := by norm_num
    rw [e1, Int.floor_intCast]
    norm_num
  exact ⟨by rw [h.2.1, e], by rw [h.1, e]⟩

/-! ## Role-Assignment Guard, remove side
(`ModCog._remove_role_with_verification`) -/

/-- Result of one `guild.fetch_member` call: found (with or without the
target role), `discord.NotFound`, or another `discord.HTTPException`. -/
inductive FetchResult where
  | found (hasRole : Bool)
  | notFound
  | httpError
  deriving Repr, DecidableEq

/-- Result of one `member.remove_roles` call. -/
inductive RemoveResult where
  | ok
  | forbidden
  | httpError
  deriving Repr, DecidableEq

/-- The platform responses the guard can observe: the result of the k-th
`fetch_member` call, the result of the k-th `remove_roles` call, and whether
the role position is below the bot's top role. -/
structure GuardEnv where
  fetch : ℕ → FetchResult
  removeCall : ℕ → RemoveResult
  hierarchyOk : Bool

/-- The distinct failure messages of `_remove_role_with_verification`
(each constructor is one `return False, "..."` site of the source). -/
inductive GuardMsg where
  | memberNotFound      -- "Member not found in the server."
  | fetchMemberFailed   -- "Failed to fetch member: ..."
  | doesNotHaveRole     -- "... doesn't have this role."
  | hierarchyTooHigh    -- "Cannot remove role: ... at or above my highest role ..."
  | missingPermissions  -- "Missing Permissions. ..."
  | apiError            -- "Discord API error: ..."
  | stillPresent        -- "Role removal completed but role is still present. ..."
  | failedAttempts      -- "Failed after multiple attempts."
  deriving Repr, DecidableEq

/-- The retry loop of `_remove_role_with_verification`, with the remaining
attempts as fuel and counters indexing the fetch/remove calls made so far.
Returns the `(success, error_message)` pair of the source. -/
def remove_role_loop (env : GuardEnv) : ℕ → ℕ → ℕ → Bool × Option GuardMsg
  | 0, _, _ => (false, some .failedAttempts)
  | n + 1, f, r =>
      match env.fetch f with
      | .notFound => (false, some .memberNotFound)
      | .httpError => (false, some .fetchMemberFailed)
      | .found hasRole =>
          if hasRole = false then (false, some .doesNotHaveRole)
          else if env.hierarchyOk = false then (false, some .hierarchyTooHigh)
          else
            match env.removeCall r with
            | .forbidden => (false, some .missingPermissions)
            | .httpError =>
                if n > 0 then remove_role_loop env n (f + 1) (r + 1)
                else (false, some .apiError)
            | .ok =>
                match env.fetch (f + 1) with
                | .notFound => (true, none)
                | .httpError =>
                    if n > 0 then remove_role_loop env n (f + 2) (r + 1)
                    else (false, some .apiError)
                | .found hasRole2 =>
                    if hasRole2 = false then (true, none)
                    else if n > 0 then remove_role_loop env n (f + 2) (r + 1)
                    else (false, some .stillPresent)

/-- `ModCog._remove_role_with_verification` with its default `max_retries = 2`. -/
def remove_role_with_verification (env : GuardEnv) : Bool × Option GuardMsg :=
  remove_role_loop env 2 0 0

/-- A C9 counterexample environment: the target member is no longer in the
guild — every `fetch_member` call raises `NotFound`. -/
def envGone : GuardEnv where
  fetch := fun _ => .notFound
  removeCall := fun _ => .ok
  hierarchyOk := true

/-- Counterexample to claim C9 as stated: with the target member no longer
in the guild (`envGone`), the remove-role operation is NOT treated as an
implicit success — it fails with the "Member not found in the server."
message. -/
theorem remove_role_member_gone_fails :
    remove_role_with_verification envGone = (false, some .memberNotFound)
    ∧ (remove_role_with_verification envGone).1 ≠ true := by
  constructor
  · rfl
  · intro hc
    exact Bool.false_ne_true (by rw [← hc]; rfl)

/-- Claim C9 as amended: the remove-role guard pre-checks that the role is
present, reporting a distinct "doesn't have this role" failure (not a
success) otherwise; a member missing at the initial fetch is reported as the
failure "Member not found in the server."; only a member who disappears
between the removal call and the verification re-fetch is treated as an
implicit success. -/
theorem remove_role_guard_semantics (env : GuardEnv) :
    (env.fetch 0 = .notFound →
      remove_role_with_verification env = (false, some .memberNotFound))
    ∧ (env.fetch 0 = .found false →
      remove_role_with_verification env = (false, some .doesNotHaveRole))
    ∧ (env.fetch 0 = .found true → env.hierarchyOk = true →
       env.removeCall 0 = .ok → env.fetch 1 = .notFound →
      remove_role_with_verification env = (true, none)) := by
  refine ⟨fun h0 => ?_, fun h0 => ?_, fun h0 hh hr h1 => ?_⟩
  · show remove_role_loop env 2 0 0 = _
    unfold remove_role_loop
    rw [h0]
  · show remove_role_loop env 2 0 0 = _
    unfold remove_role_loop
    rw [h0]
    simp
  · show remove_role_loop env 2 0 0 = _
    unfold remove_role_loop
    rw [h0, hh, hr, h1]
    simp

/-- Witness for C9 (amended): an environment where the member holds the role,
the hierarchy allows removal, and the member leaves right after the removal
call — the guard reports implicit success. -/
theorem remove_role_guard_semantics_witness :
    remove_role_with_verification
      { fetch := fun k => if k = 0 then .found true else .notFound,
        removeCall := fun _ => .ok,
        hierarchyOk := true } = (true, none) :=
  (remove_role_guard_semantics
    { fetch := fun k => if k = 0 then .found true else .notFound,
      removeCall := fun _ => .ok,
      hierarchyOk := true }).2.2 rfl rfl rfl rfl

/-! ## Voice tick (`XpCog._process_voice_xp`, `config.py` XP_CONFIG) -/

/-- `XP_CONFIG["voice"]["xp_per_cycle"]`. -/
def voice_xp_per_cycle : ℕ := 2

/-- `XP_CONFIG["voice"]["min_members"]`. -/
def voice_min_members : ℕ := 2

/-- A member of a voice channel with the flags `_process_voice_xp` reads. -/
structure VMember where
  id : ℕ
  bot : Bool
  mute : Bool
  self_mute : Bool
  deaf : Bool
  self_deaf : Bool
  suppress : Bool
  deriving Repr, DecidableEq

/-- The `valid_members` filter of `_process_voice_xp`. -/
def voice_valid (m : VMember) : Bool :=
  !m.bot && !m.mute && !m.self_mute && !m.deaf && !m.self_deaf && !m.suppress

/-- The per-channel body of `_process_voice_xp`: if the eligible members
reach `min_members`, add `xp_per_cycle` to each one's pending XP. -/
def process_voice_channel (pending : ℕ → ℕ) (members : List VMember) : ℕ → ℕ :=
  if voice_min_members ≤ (members.filter voice_valid).length then
    (members.filter voice_valid).foldl
      (fun p m => fun u => if u = m.id then p u + voice_xp_per_cycle else p u)
      pending
  else pending

/-- Folding the award over a member list adds `xp_per_cycle` per occurrence
of the id. -/
theorem voice_fold_adds (l : List VMember) (pending : ℕ → ℕ) (u : ℕ) :
    (l.foldl (fun p m => fun v => if v = m.id then p v + voice_xp_per_cycle else p v)
        pending) u
      = pending u + voice_xp_per_cycle * (l.countP (fun m => m.id = u)) := by
  induction l generalizing pending with
  | nil => simp
  | cons m t ih =>
      rw [List.foldl_cons, ih, List.countP_cons]
      by_cases hm : m.id = u
      · subst hm
        simp [voice_xp_per_cycle]
        omega
      · simp [hm, Ne.symm hm]

/-- With pairwise-distinct ids, exactly one list entry matches a member's id. -/
theorem countP_id_eq_one {l : List VMember} (h : (l.map VMember.id).Nodup)
    {m : VMember} (hm : m ∈ l) :
    l.countP (fun x => x.id = m.id) = 1 := by
  induction l with
  | nil => cases hm
  | cons a t ih =>
      rw [List.countP_cons]
      have ha : a.id ∉ t.map VMember.id := (List.nodup_cons.mp h).1
      rcases List.mem_cons.mp hm with rfl | hmt
      · have h0 : t.countP (fun x => x.id = m.id) = 0 := by
          rw [List.countP_eq_zero]
          intro x hx
          simp only [decide_eq_true_eq]
          intro he
          exact ha (he ▸ List.mem_map_of_mem VMember.id hx)
        simp [h0]
      · have h1 := ih (List.nodup_cons.mp h).2 hmt
        have hne : ¬ (a.id = m.id) :=
          fun he => ha (he ▸ List.mem_map_of_mem VMember.id hmt)
        simp [h1, hne]

/-- Claim C10: on a voice tick, a channel whose eligible-member set is below
`min_members` yields no award at all; when the set reaches `min_members`,
every eligible member receives exactly `xp_per_cycle` pending points and
nobody else receives anything. -/
theorem voice_tick_threshold (pending : ℕ → ℕ) (members : List VMember)
    (hnd : ((members.filter voice_valid).map VMember.id).Nodup) :
    ((members.filter voice_valid).length < voice_min_members →
      process_voice_channel pending members = pending)
    ∧ (voice_min_members ≤ (members.filter voice_valid).length →
        (∀ m ∈ members.filter voice_valid,
          process_voice_channel pending members m.id
            = pending m.id + voice_xp_per_cycle)
        ∧ (∀ u, (∀ m ∈ members.filter voice_valid, m.id ≠ u) →
            process_voice_channel pending members u = pending u)) := by
  constructor
  · intro hlt
    unfold process_voice_channel
    rw [if_neg (not_le.mpr hlt)]
  · intro hge
    constructor
    · intro m hm
      unfold process_voice_channel
      rw [if_pos hge, voice_fold_adds, countP_id_eq_one hnd hm, Nat.mul_one]
    · intro u hu
      unfold process_voice_channel
      rw [if_pos hge, voice_fold_adds]
      have h0 : (members.filter voice_valid).countP (fun m => m.id = u) = 0 := by
        rw [List.countP_eq_zero]
        intro x hx
        simp only [decide_eq_true_eq]
        exact hu x hx
      rw [h0, Nat.mul_zero, Nat.add_zero]

/-- An eligible (human, unmuted, undeafened, unsuppressed) voice member. -/
def vm (i : ℕ) : VMember where
  id := i
  bot := false
  mute := false
  self_mute := false
  deaf := false
  self_deaf := false
  suppress := false

/-- Witness for C10: one eligible member yields no award; with two eligible
members each receives `xp_per_cycle = 2`. -/
theorem voice_tick_threshold_witness :
    process_voice_channel (fun _ => 0) [vm 1] = (fun _ => 0)
    ∧ process_voice_channel (fun _ => 0) [vm 1, vm 2] 1 = 2
    ∧ process_voice_channel (fun _ => 0) [vm 1, vm 2] 2 = 2 := by
  refine ⟨(voice_tick_threshold (fun _ => 0) [vm 1] (by decide)).1 (by decide), ?_, ?_⟩
  · have h := ((voice_tick_threshold (fun _ => 0) [vm 1, vm 2] (by decide)).2
      (by decide)).1 (vm 1) (by decide)
    simpa [vm, voice_xp_per_cycle] using h
  · have h := ((voice_tick_threshold (fun _ => 0) [vm 1, vm 2] (by decide)).2
      (by decide)).1 (vm 2) (by decide)
    simpa [vm, voice_xp_per_cycle] using h

/-! ## Message XP (`XpCog.on_message`, `XpCog.batch_update_db`) -/

/-- `XP_CONFIG["message"]["min_length"]`. -/
def msg_min_length : ℕ := 10

/-- `XP_CONFIG["message"]["min_xp"]`. -/
def msg_min_xp : ℕ := 10

/-- `XP_CONFIG["message"]["max_xp"]`. -/
def msg_max_xp : ℕ := 15

/-- One message event as `on_message` observes it: author-is-bot flag, the
`xp_system_enabled` setting, content length, channel vs. configured bot
channel, author id, and the `randint(min_xp, max_xp)` draw `r` this message
would award. -/
structure MEvent where
  authorBot : Bool
  enabled : Bool
  contentLen : ℕ
  channelId : ℕ
  botChannelId : ℕ
  uid : ℕ
  r : ℕ
  deriving Repr, DecidableEq

/-- The message-XP part of the cog's in-memory state. -/
structure MState where
  gained_msg_xp : List ℕ
  pending_xp : ℕ → ℕ

/-- `XpCog.on_message`: guard chain, then award `r` once per cycle. -/
def on_message (st : MState) (e : MEvent) : MState :=
  if e.authorBot then st
  else if e.enabled = false then st
  else if e.contentLen < msg_min_length then st
  else if e.channelId = e.botChannelId then st
  else if e.uid ∈ st.gained_msg_xp then st
  else { gained_msg_xp := e.uid :: st.gained_msg_xp,
         pending_xp := fun u => if u = e.uid then st.pending_xp u + e.r
                                else st.pending_xp u }

/-- Process a list of message events in order. -/
def runMessages (st : MState) (evs : List MEvent) : MState :=
  evs.foldl on_message st

/-- The cog's state at startup (`XpCog.__init__`). -/
def initM : MState where
  gained_msg_xp := []
  pending_xp := fun _ => 0

/-- A message qualifies for XP: non-bot author, system enabled, content long
enough, not in the bot channel. -/
def qualifies (e : MEvent) : Bool :=
  !e.authorBot && e.enabled && decide (msg_min_length ≤ e.contentLen)
    && (e.channelId != e.botChannelId)

/-- A message qualifies and is authored by `u`. -/
def qualifiesFor (u : ℕ) (e : MEvent) : Bool :=
  qualifies e && (e.uid == u)

/-- The in-memory effect of the flush task `XpCog.batch_update_db` on the
message-XP state: the per-cycle dedup set is cleared, and `pending_xp` is
handed to `XpService.batch_update` and then cleared. -/
def flush_cycle_state (_st : MState) : MState where
  gained_msg_xp := []
  pending_xp := fun _ => 0

/-- The resulting state after a single event: unchanged, or an award to a
qualifying author not yet marked this cycle. -/
theorem on_message_cases (st : MState) (e : MEvent) :
    on_message st e = st
    ∨ (qualifies e = true ∧ e.uid ∉ st.gained_msg_xp ∧
       on_message st e
        = { gained_msg_xp := e.uid :: st.gained_msg_xp,
            pending_xp := fun u => if u = e.uid then st.pending_xp u + e.r
                                   else st.pending_xp u }) := by
  unfold on_message
  split_ifs with h1 h2 h3 h4 h5
  · exact Or.inl rfl
  · exact Or.inl rfl
  · exact Or.inl rfl
  · exact Or.inl rfl
  · exact Or.inl rfl
  · right
    refine ⟨?_, h5, rfl⟩
    have b1 : e.authorBot = false := by revert h1; cases e.authorBot <;> simp
    have b2 : e.enabled = true := by revert h2; cases e.enabled <;> simp
    have b3 : msg_min_length ≤ e.contentLen := Nat.not_lt.mp h3
    unfold qualifies
    simp [b1, b2, b3, h4]

/-- A qualifying message by an author not yet marked this cycle awards. -/
theorem on_message_award (st : MState) (e : MEvent)
    (he : qualifies e = true) (hu : e.uid ∉ st.gained_msg_xp) :
    on_message st e
      = { gained_msg_xp := e.uid :: st.gained_msg_xp,
          pending_xp := fun u => if u = e.uid then st.pending_xp u + e.r
                                 else st.pending_xp u } := by
  unfold qualifies at he
  simp only [Bool.and_eq_true, Bool.not_eq_true', bne_iff_ne, decide_eq_true_eq] at he
  obtain ⟨⟨⟨h1, h2⟩, h3⟩, h4⟩ := he
  unfold on_message
  rw [if_neg (by simp [h1]), if_neg (by simp [h2]), if_neg (Nat.not_lt.mpr h3),
      if_neg h4, if_neg hu]

/-- Once an author is in the per-cycle dedup set, the rest of the cycle never
changes their pending XP. -/
theorem run_pending_absorbed (evs : List MEvent) :
    ∀ st u, u ∈ st.gained_msg_xp →
      (runMessages st evs).pending_xp u = st.pending_xp u := by
  induction evs with
  | nil => intro st u _; rfl
  | cons e t ih =>
      intro st u h
      show (runMessages (on_message st e) t).pending_xp u = _
      rcases on_message_cases st e with hc | ⟨_, hu, hc⟩
      · rw [hc]; exact ih st u h
      · have hne : e.uid ≠ u := fun he => hu (he ▸ h)
        rw [hc, ih _ u (List.mem_cons_of_mem _ h)]
        simp [Ne.symm hne]

/-- Within one cycle, a user's pending XP grows by exactly the draw of their
first qualifying message (and by nothing when they have none). -/
theorem run_pending_find (evs : List MEvent) :
    ∀ st u, u ∉ st.gained_msg_xp →
      (runMessages st evs).pending_xp u
        = st.pending_xp u + (match evs.find? (qualifiesFor u) with
                             | some e => e.r
                             | none => 0) := by
  induction evs with
  | nil => intro st u _; simp [runMessages]
  | cons e t ih =>
      intro st u h
      show (runMessages (on_message st e) t).pending_xp u = _
      by_cases hq : qualifiesFor u e = true
      · rw [List.find?_cons_of_pos _ hq]
        have hqe : qualifies e = true ∧ e.uid = u := by
          unfold qualifiesFor at hq
          simpa [Bool.and_eq_true] using hq
        have haw := on_message_award st e hqe.1 (by rw [hqe.2]; exact h)
        rw [haw, run_pending_absorbed t _ u (by rw [hqe.2]; exact List.mem_cons_self ..)]
        simp [hqe.2]
      · rw [List.find?_cons_of_neg _ (by simpa using hq)]
        rcases on_message_cases st e with hc | ⟨hqe, hu, hc⟩
        · rw [hc]; exact ih st u h
        · have hne : e.uid ≠ u := by
            intro he
            apply hq
            unfold qualifiesFor
            simp [hqe, he]
          rw [hc, ih _ u (by simp [List.mem_cons, Ne.symm hne, h])]
          simp [Ne.symm hne]

/-- Claim C4: within a flush cycle a user's pending XP receives exactly one
message-XP award — the draw `r` of their first qualifying message (a
`randint(min_xp, max_xp)` value when all draws are in range) — no matter how
many further qualifying messages they send; the dedup set is cleared by the
flush, so across two cycles each cycle awards (at most) once again. -/
theorem message_xp_one_award_per_cycle :
    (∀ (st : MState) (evs : List MEvent) (u : ℕ), u ∉ st.gained_msg_xp →
      (runMessages st evs).pending_xp u
        = st.pending_xp u + (match evs.find? (qualifiesFor u) with
                             | some e => e.r
                             | none => 0))
    ∧ (∀ st : MState, (flush_cycle_state st).gained_msg_xp = []
        ∧ (∀ u : ℕ, (flush_cycle_state st).pending_xp u = 0))
    ∧ (∀ (evs1 evs2 : List MEvent) (u : ℕ),
        (runMessages initM evs1).pending_xp u
          = (match evs1.find? (qualifiesFor u) with
             | some e => e.r
             | none => 0)
        ∧ (runMessages (flush_cycle_state (runMessages initM evs1)) evs2).pending_xp u
          = (match evs2.find? (qualifiesFor u) with
             | some e => e.r
             | none => 0))
    ∧ (∀ (evs : List MEvent) (u : ℕ) (e : MEvent),
        evs.find? (qualifiesFor u) = some e →
        (∀ e2 ∈ evs, msg_min_xp ≤ e2.r ∧ e2.r ≤ msg_max_xp) →
        msg_min_xp ≤ e.r ∧ e.r ≤ msg_max_xp) := by
  refine ⟨fun st evs u h => run_pending_find evs st u h, fun _ => ⟨rfl, fun _ => rfl⟩,
    fun evs1 evs2 u => ⟨?_, ?_⟩, fun evs u e hf hr => hr e (List.mem_of_find?_eq_some hf)⟩
  · have h := run_pending_find evs1 initM u (by simp [initM])
    simpa [initM] using h
  · have h := run_pending_find evs2 (flush_cycle_state (runMessages initM evs1)) u
      (by simp [flush_cycle_state])
    simpa [flush_cycle_state] using h

/-- A qualifying message by user 3 with draw `r`. -/
def mev (r : ℕ) : MEvent where
  authorBot := false
  enabled := true
  contentLen := 20
  channelId := 5
  botChannelId := 9
  uid := 3
  r := r

/-- Witness for C4: two qualifying messages by user 3 in one cycle award only
the first draw (12); after the flush, a fresh cycle awards its own first
draw (11). -/
theorem message_xp_one_award_per_cycle_witness :
    (runMessages initM [mev 12, mev 14]).pending_xp 3 = 12
    ∧ (runMessages (flush_cycle_state (runMessages initM [mev 12, mev 14]))
        [mev 11]).pending_xp 3 = 11 := by
  have h := message_xp_one_award_per_cycle.2.2.1 [mev 12, mev 14] [mev 11] 3
  have e1 : ([mev 12, mev 14].find? (qualifiesFor 3)) = some (mev 12) := by decide
  have e2 : ([mev 11].find? (qualifiesFor 3)) = some (mev 11) := by decide
  rw [e1, e2] at h
  exact h

/-! ## Reaction XP (`XpCog.on_reaction_add`, `config.py` XP_CONFIG) -/

/-- `XP_CONFIG["reaction"]["xp_per_reaction"]`. -/
def xp_per_reaction : ℕ := 5

/-- `XP_CONFIG["reaction"]["max_xp_per_message"]`. -/
def max_xp_per_message : ℕ := 50

/-- `XP_CONFIG["reaction"]["daily_cap"]`. -/
def daily_cap : ℕ := 100

/-- The reaction-XP part of the cog's in-memory state:
the set of already-rewarded (user, message) pairs (kept as the list of its
insertions), the per-message cumulative reaction XP (`dict.get(msg, 0)`),
the per-user daily cache `user → (date, xp-today)`, and the pending map. -/
structure RState where
  user_reacted_to_message : List (ℕ × ℕ)
  message_reaction_xp : ℕ → ℕ
  daily_reaction_cache : ℕ → Option (ℕ × ℕ)
  pending_xp : ℕ → ℕ

/-- The cog's reaction state at startup (`XpCog.__init__`). -/
def initR : RState where
  user_reacted_to_message := []
  message_reaction_xp := fun _ => 0
  daily_reaction_cache := fun _ => none
  pending_xp := fun _ => 0

/-- One reaction event as `on_reaction_add` observes it (`today` is the
calendar date `str(datetime.date.today())`, as an abstract value). -/
structure REvent where
  userBot : Bool
  enabled : Bool
  uid : ℕ
  msgId : ℕ
  today : ℕ
  deriving Repr, DecidableEq

/-- The user's reaction XP counted for `today`: the cached amount when the
cached date is `today`, else 0 (the `user_daily` normalization of the cog). -/
def effective_daily (st : RState) (uid today : ℕ) : ℕ :=
  match st.daily_reaction_cache uid with
  | some p => if p.1 = today then p.2 else 0
  | none => 0

/-- The award tail of `on_reaction_add`: record the pair, bump the message
total, the daily cache and the pending XP, all by `xp_per_reaction`. -/
def award_state (st : RState) (e : REvent) : RState where
  user_reacted_to_message := (e.uid, e.msgId) :: st.user_reacted_to_message
  message_reaction_xp := fun m =>
    if m = e.msgId then st.message_reaction_xp e.msgId + xp_per_reaction
    else st.message_reaction_xp m
  daily_reaction_cache := fun u =>
    if u = e.uid then some (e.today, effective_daily st e.uid e.today + xp_per_reaction)
    else st.daily_reaction_cache u
  pending_xp := fun u =>
    if u = e.uid then st.pending_xp u + xp_per_reaction
    else st.pending_xp u

/-- `XpCog.on_reaction_add`: guards (bot author, system disabled), then the
three caps in source order — pair already rewarded, daily cap, per-message
cap — and otherwise the award. -/
def on_reaction_add (st : RState) (e : REvent) : RState :=
  if e.userBot then st
  else if e.enabled = false then st
  else if (e.uid, e.msgId) ∈ st.user_reacted_to_message then st
  else if daily_cap ≤ effective_daily st e.uid e.today then st
  else if max_xp_per_message ≤ st.message_reaction_xp e.msgId then st
  else award_state st e

/-- Process a list of reaction events in order. -/
def runReactions (st : RState) (evs : List REvent) : RState :=
  evs.foldl on_reaction_add st

/-- Rewarded pairs touching message `m`: one per distinct rewarding user. -/
def msgCount (l : List (ℕ × ℕ)) (m : ℕ) : ℕ :=
  l.countP (fun p => p.2 = m)

/-- Rewarded pairs of user `u` (across all messages). -/
def userCount (l : List (ℕ × ℕ)) (u : ℕ) : ℕ :=
  l.countP (fun p => p.1 = u)

/-- Either the event is dropped (state unchanged) or all three caps passed
and the award happened. -/
theorem on_reaction_cases (st : RState) (e : REvent) :
    on_reaction_add st e = st
    ∨ ((e.uid, e.msgId) ∉ st.user_reacted_to_message
       ∧ effective_daily st e.uid e.today < daily_cap
       ∧ st.message_reaction_xp e.msgId < max_xp_per_message
       ∧ on_reaction_add st e = award_state st e) := by
  unfold on_reaction_add
  split_ifs with hb hen hp hd hm
  · exact Or.inl rfl
  · exact Or.inl rfl
  · exact Or.inl rfl
  · exact Or.inl rfl
  · exact Or.inl rfl
  · exact Or.inr ⟨hp, not_le.mp hd, not_le.mp hm, rfl⟩

/-- With author/enabled guards passed and all three caps open, the award
happens. -/
theorem on_reaction_award (st : RState) (e : REvent)
    (hb : e.userBot = false) (hen : e.enabled = true)
    (h1 : (e.uid, e.msgId) ∉ st.user_reacted_to_message)
    (h2 : effective_daily st e.uid e.today < daily_cap)
    (h3 : st.message_reaction_xp e.msgId < max_xp_per_message) :
    on_reaction_add st e = award_state st e := by
  unfold on_reaction_add
  rw [if_neg (by simp [hb]), if_neg (by simp [hen]), if_neg h1,
      if_neg (not_le.mpr h2), if_neg (not_le.mpr h3)]

/-- If any of the three caps blocks, the event is dropped. -/
theorem on_reaction_no_award (st : RState) (e : REvent)
    (h : (e.uid, e.msgId) ∈ st.user_reacted_to_message
       ∨ daily_cap ≤ effective_daily st e.uid e.today
       ∨ max_xp_per_message ≤ st.message_reaction_xp e.msgId) :
    on_reaction_add st e = st := by
  unfold on_reaction_add
  split_ifs with hb hen hp hd hm
  · rfl
  · rfl
  · rfl
  · rfl
  · rfl
  · rcases h with h | h | h
    · exact absurd h hp
    · exact absurd h hd
    · exact absurd h hm

/-- The message-cap invariant: rewarded pairs are distinct, and each
message's cumulative total is `xp_per_reaction` per rewarded pair, capped by
`max_xp_per_message`. -/
structure RInv (st : RState) : Prop where
  nodup : st.user_reacted_to_message.Nodup
  msg_eq : ∀ m, st.message_reaction_xp m
    = xp_per_reaction * msgCount st.user_reacted_to_message m
  msg_le : ∀ m, st.message_reaction_xp m ≤ max_xp_per_message

/-- Adding a pair for message `m` bumps its count by one. -/
theorem msgCount_cons_same (l : List (ℕ × ℕ)) (u m : ℕ) :
    msgCount ((u, m) :: l) m = msgCount l m + 1 := by
  unfold msgCount
  rw [List.countP_cons]
  simp

/-- Adding a pair for another message leaves the count unchanged. -/
theorem msgCount_cons_other (l : List (ℕ × ℕ)) (u m m2 : ℕ) (h : m2 ≠ m) :
    msgCount ((u, m) :: l) m2 = msgCount l m2 := by
  unfold msgCount
  rw [List.countP_cons]
  simp [Ne.symm h]

/-- Adding a pair by user `u` bumps their count by one. -/
theorem userCount_cons_same (l : List (ℕ × ℕ)) (u m : ℕ) :
    userCount ((u, m) :: l) u = userCount l u + 1 := by
  unfold userCount
  rw [List.countP_cons]
  simp

/-- Adding a pair by another user leaves the count unchanged. -/
theorem userCount_cons_other (l : List (ℕ × ℕ)) (u m v : ℕ) (h : v ≠ u) :
    userCount ((u, m) :: l) v = userCount l v := by
  unfold userCount
  rw [List.countP_cons]
  simp [Ne.symm h]

/-- One reaction event preserves the message-cap invariant. -/
theorem RInv_step (st : RState) (e : REvent) (h : RInv st) :
    RInv (on_reaction_add st e) := by
  rcases on_reaction_cases st e with hc | ⟨hp, _, hm, hc⟩
  · rw [hc]; exact h
  · rw [hc]
    refine ⟨List.nodup_cons.mpr ⟨hp, h.nodup⟩, ?_, ?_⟩
    · intro m
      have hlist : (award_state st e).user_reacted_to_message
          = (e.uid, e.msgId) :: st.user_reacted_to_message := rfl
      rw [hlist]
      by_cases hme : m = e.msgId
      · have hL : (award_state st e).message_reaction_xp m
            = st.message_reaction_xp e.msgId + xp_per_reaction := by
          simp [award_state, hme]
        rw [hL, hme, msgCount_cons_same, h.msg_eq]
        ring
      · have hL : (award_state st e).message_reaction_xp m
            = st.message_reaction_xp m := by
          simp [award_state, hme]
        rw [hL, msgCount_cons_other _ _ _ _ hme, h.msg_eq]
    · intro m
      by_cases hme : m = e.msgId
      · have hL : (award_state st e).message_reaction_xp m
            = st.message_reaction_xp e.msgId + xp_per_reaction := by
          simp [award_state, hme]
        rw [hL]
        have heq := h.msg_eq e.msgId
        simp only [xp_per_reaction, max_xp_per_message] at heq hm ⊢
        omega
      · have hL : (award_state st e).message_reaction_xp m
            = st.message_reaction_xp m := by
          simp [award_state, hme]
        rw [hL]
        exact h.msg_le m

/-- The daily-cap invariant for a fixed date `d`: each user's cache entry is
absent (no rewarded pairs) or carries date `d` and `xp_per_reaction` per
rewarded pair, capped by `daily_cap`. -/
def RDayInv (d : ℕ) (st : RState) : Prop :=
  ∀ u, (st.daily_reaction_cache u = none
          ∧ userCount st.user_reacted_to_message u = 0)
     ∨ (st.daily_reaction_cache u
          = some (d, xp_per_reaction * userCount st.user_reacted_to_message u)
        ∧ xp_per_reaction * userCount st.user_reacted_to_message u ≤ daily_cap)

/-- One same-day reaction event preserves the daily-cap invariant. -/
theorem RDayInv_step (d : ℕ) (st : RState) (e : REvent) (hd : e.today = d)
    (h : RDayInv d st) : RDayInv d (on_reaction_add st e) := by
  rcases on_reaction_cases st e with hc | ⟨_, hdc, _, hc⟩
  · rw [hc]; exact h
  · rw [hc]
    intro u
    have hlist : (award_state st e).user_reacted_to_message
        = (e.uid, e.msgId) :: st.user_reacted_to_message := rfl
    by_cases hue : u = e.uid
    · right
      have hcache : (award_state st e).daily_reaction_cache u
          = some (e.today, effective_daily st e.uid e.today + xp_per_reaction) := by
        simp [award_state, hue]
      have hcnt : userCount (award_state st e).user_reacted_to_message u
          = userCount st.user_reacted_to_message u + 1 := by
        rw [hlist, hue, userCount_cons_same]
      rcases h u with ⟨hn, hc0⟩ | ⟨hs, hb⟩
      · have heff : effective_daily st e.uid e.today = 0 := by
          unfold effective_daily
          rw [← hue, hn]
        rw [hcache, hcnt, heff, hc0, hd]
        exact ⟨by simp [xp_per_reaction], by decide⟩
      · have heff : effective_daily st e.uid e.today
            = xp_per_reaction * userCount st.user_reacted_to_message u := by
          unfold effective_daily
          rw [← hue, hs]
          simp [hd]
        rw [hcache, hcnt, heff, hd]
        constructor
        · have he2 : xp_per_reaction * userCount st.user_reacted_to_message u
                + xp_per_reaction
              = xp_per_reaction * (userCount st.user_reacted_to_message u + 1) := by
            ring
          rw [he2]
        · rw [heff] at hdc
          simp only [xp_per_reaction, daily_cap] at hdc ⊢
          omega
    · have hcache : (award_state st e).daily_reaction_cache u
          = st.daily_reaction_cache u := by
        simp [award_state, hue]
      have hcnt : userCount (award_state st e).user_reacted_to_message u
          = userCount st.user_reacted_to_message u := by
        rw [hlist, userCount_cons_other _ _ _ _ hue]
      rw [hcache, hcnt]
      exact h u

/-- The message-cap invariant holds of the initial state. -/
theorem RInv_init : RInv initR :=
  ⟨List.nodup_nil, fun _ => by simp [initR, msgCount], fun _ => Nat.zero_le _⟩

/-- The daily-cap invariant holds of the initial state. -/
theorem RDayInv_init (d : ℕ) : RDayInv d initR :=
  fun _ => Or.inl ⟨rfl, rfl⟩

/-- The message-cap invariant holds after any event sequence. -/
theorem RInv_run (evs : List REvent) :
    ∀ st, RInv st → RInv (runReactions st evs) := by
  induction evs with
  | nil => intro st h; exact h
  | cons e t ih => intro st h; exact ih _ (RInv_step st e h)

/-- The daily-cap invariant holds after any same-day event sequence. -/
theorem RDayInv_run (evs : List REvent) (d : ℕ) (hd : ∀ e ∈ evs, e.today = d) :
    ∀ st, RDayInv d st → RDayInv d (runReactions st evs) := by
  induction evs with
  | nil => intro st h; exact h
  | cons e t ih =>
      intro st h
      exact ih (fun e2 he2 => hd e2 (List.mem_cons_of_mem _ he2)) _
        (RDayInv_step d st e (hd e (List.mem_cons_self ..)) h)

/-- Claim C3: a reaction award of `xp_per_reaction` to the reactor happens
exactly when all three caps pass (pair never rewarded, message total below
`max_xp_per_message`, user's daily total below `daily_cap`); consequently,
from a fresh cache, at most `50 / 5 = 10` distinct reactors are rewarded per
message, no (user, message) pair is ever rewarded twice, and a user is
rewarded for at most `100 / 5 = 20` reactions per calendar day. -/
theorem reaction_xp_triple_cap :
    (∀ (st : RState) (e : REvent), e.userBot = false → e.enabled = true →
      (((e.uid, e.msgId) ∉ st.user_reacted_to_message
          ∧ effective_daily st e.uid e.today < daily_cap
          ∧ st.message_reaction_xp e.msgId < max_xp_per_message) →
        (on_reaction_add st e).pending_xp e.uid
            = st.pending_xp e.uid + xp_per_reaction
        ∧ (on_reaction_add st e).user_reacted_to_message
            = (e.uid, e.msgId) :: st.user_reacted_to_message)
      ∧ (¬((e.uid, e.msgId) ∉ st.user_reacted_to_message
          ∧ effective_daily st e.uid e.today < daily_cap
          ∧ st.message_reaction_xp e.msgId < max_xp_per_message) →
        on_reaction_add st e = st))
    ∧ (∀ (evs : List REvent) (m : ℕ),
        (runReactions initR evs).user_reacted_to_message.Nodup
        ∧ msgCount (runReactions initR evs).user_reacted_to_message m ≤ 10)
    ∧ (∀ (evs : List REvent) (d u : ℕ), (∀ e ∈ evs, e.today = d) →
        userCount (runReactions initR evs).user_reacted_to_message u ≤ 20) := by
  refine ⟨fun st e hb hen => ⟨?_, ?_⟩, fun evs m => ?_, fun evs d u hdays => ?_⟩
  · rintro ⟨h1, h2, h3⟩
    rw [on_reaction_award st e hb hen h1 h2 h3]
    exact ⟨by simp [award_state], rfl⟩
  · intro hn
    apply on_reaction_no_award
    by_cases h1 : (e.uid, e.msgId) ∈ st.user_reacted_to_message
    · exact Or.inl h1
    · by_cases h2 : daily_cap ≤ effective_daily st e.uid e.today
      · exact Or.inr (Or.inl h2)
      · by_cases h3 : max_xp_per_message ≤ st.message_reaction_xp e.msgId
        · exact Or.inr (Or.inr h3)
        · exact absurd ⟨h1, not_le.mp h2, not_le.mp h3⟩ hn
  · have hinv := RInv_run evs initR RInv_init
    refine ⟨hinv.nodup, ?_⟩
    have h1 := hinv.msg_eq m
    have h2 := hinv.msg_le m
    rw [h1] at h2
    simp only [xp_per_reaction, max_xp_per_message] at h2
    omega
  · have hday := RDayInv_run evs d hdays initR (RDayInv_init d)
    rcases hday u with ⟨_, hcnt⟩ | ⟨_, hb⟩
    · rw [hcnt]
      omega
    · simp only [xp_per_reaction, daily_cap] at hb
      omega

/-- A non-bot reaction by user 1 on message 2 on day 0, system enabled. -/
def rev1 : REvent where
  userBot := false
  enabled := true
  uid := 1
  msgId := 2
  today := 0

/-- Witness for C3: from the fresh cache, `rev1` passes all three caps and
awards 5 pending XP, and the day-0 bound instantiates. -/
theorem reaction_xp_triple_cap_witness :
    (on_reaction_add initR rev1).pending_xp 1 = 0 + 5
    ∧ userCount (runReactions initR [rev1]).user_reacted_to_message 1 ≤ 20 := by
  constructor
  · have h := ((reaction_xp_triple_cap.1 initR rev1 rfl rfl).1
      ⟨by decide, by decide, by decide⟩).1
    simpa [initR, xp_per_reaction] using h
  · exact reaction_xp_triple_cap.2.2 [rev1] 0 1
      (fun e he => by rcases List.mem_singleton.mp he with rfl; rfl)

end DiscordBot
